import Mathlib

/-!
Verification of the core logic of `example1/Data_Agent_SDK_Standalone.py`.

Part 1 embeds the safe arithmetic evaluator (`_ALLOWED_OPS`, `_eval_ast`,
`eval_expression`, lines 47-76 of the source).  Python values are embedded
exactly: Python `int` is `ℤ`; Python `float` is idealized as an exact
rational `ℚ` (IEEE-754 rounding, overflow and the shortest-roundtrip decimal
printing of CPython are outside the model; no claim depends on a rounded
value, and the spec itself accepts "equivalent exact rational/float
representation").  A power with a non-integer exponent is real/complex
valued and is left abstract (outcome `Outcome.unk`); no claim depends on it.
The character classes `\d` and `\s` of the regular expression on line 70 are
modelled over their ASCII portion (the Unicode extras match no claim), and
CPython exception-message texts are reproduced only where a claim tests them
("Unsupported expression", "arithmetic only", "division by zero"); other
message texts are abbreviated and never relied upon.

Part 2 (further below) models the agent-orchestration runtime (guardrails,
handoffs, run loop) that the source only configures: that runtime lives in
the external Agents SDK, not in this repository, so it is modelled from the
specification, as marked on each definition.
-/

/-! ### Character classes of the regex filter (line 70) -/

/-- ASCII whitespace, the `\s` class of the filter regex (and the characters
removed by `str.strip()` on line 69): space, tab, newline, CR, VT, FF. -/
def isSpaceB (c : Char) : Bool :=
  c.toNat = 32 || c.toNat = 9 || c.toNat = 10 || c.toNat = 13 ||
  c.toNat = 11 || c.toNat = 12

/-- ASCII decimal digit, the `\d` class of the filter regex. -/
def isDigitB (c : Char) : Bool :=
  48 ≤ c.toNat && c.toNat ≤ 57

/-- Membership in the character class of the pre-filter regex on line 70,
`[\d\s\(\)\+\-\*/\.\^%]`: digits, whitespace, and the nine symbols
`(` `)` `*` `+` `-` `.` `/` `%` `^` (codes 40, 41, 42, 43, 45, 46, 47, 37, 94). -/
def isAllowedChar (c : Char) : Bool :=
  isDigitB c || isSpaceB c ||
  c.toNat = 40 || c.toNat = 41 || c.toNat = 42 || c.toNat = 43 ||
  c.toNat = 45 || c.toNat = 46 || c.toNat = 47 || c.toNat = 37 ||
  c.toNat = 94

/-- A character that can occur in a Python identifier token but never in a
digit, whitespace or symbol of the filter class: an ASCII letter (codes
65-90, 97-122) or an underscore (code 95). -/
def isIdentChar (c : Char) : Bool :=
  (65 ≤ c.toNat && c.toNat ≤ 90) || (97 ≤ c.toNat && c.toNat ≤ 122) ||
  c.toNat = 95

/-! ### The preprocessing on line 69: `expression.strip().replace("^", "**")` -/

/-- Python `str.strip()`: drop leading and trailing whitespace. -/
def pyStrip (l : List Char) : List Char :=
  ((l.dropWhile isSpaceB).reverse.dropWhile isSpaceB).reverse

/-- Python `str.replace("^", "**")`: rewrite every caret to a double star. -/
def replaceCaret : List Char → List Char
  | [] => []
  | c :: cs => if c = '^' then '*' :: '*' :: replaceCaret cs else c :: replaceCaret cs

/-- The claim C8 transformation, at `String` level: every `^` of the
expression replaced by `**`. -/
def hatToStars (s : String) : String :=
  String.mk (replaceCaret s.data)

/-! ### Python values, exceptions and evaluation outcomes -/

/-- A Python value reachable inside `_eval_ast` under the character filter:
an `int`, a `float` (idealized as an exact rational), or the `Ellipsis`
object (the literal `...` passes the filter and is an `ast.Constant`). -/
inductive PyVal where
  | intV (n : ℤ)
  | floatV (q : ℚ)
  | ellipsisVal
deriving DecidableEq, Repr

/-- An exception reachable inside `_eval_ast`: the explicit
`ValueError("Unsupported expression")` of line 64, a `ZeroDivisionError`, or
a `TypeError` (arithmetic on the `Ellipsis` object).  The carried message is
what `str(e)` yields in the handler on line 76. -/
inductive PyExc where
  | unsupported
  | zeroDiv (msg : String)
  | typeErr (msg : String)
deriving DecidableEq, Repr

/-- Python `str(e)` for the exceptions above. -/
def excMsg : PyExc → String
  | .unsupported => "Unsupported expression"
  | .zeroDiv m => m
  | .typeErr m => m

/-- Outcome of evaluating one AST node: a value, a raised exception, or the
two abstraction markers.  `unk` marks an evaluation whose Python outcome
(value or exception) the exact-rational model does not track — it arises
only from `**` with a non-integer exponent, whose value is real or complex.
`excUnk` marks an evaluation that certainly raises, where the model does not
track which exception (an untracked subexpression to the left of a raising
one). -/
inductive Outcome where
  | val (v : PyVal)
  | exc (e : PyExc)
  | unk
  | excUnk
deriving DecidableEq, Repr

/-! ### The AST fragment reachable through the character filter

With only digits, whitespace, `()+-*/.%^` available (and `^` rewritten to
`**` before parsing), `ast.parse(expr, mode="eval")` can produce exactly:
numeric `Constant`s and the `Ellipsis` constant `...`; `UnaryOp` with
`UAdd`/`USub`; `BinOp` with `Add`, `Sub`, `Mult`, `Div`, `FloorDiv` (`//`),
`Mod`, `Pow`; `Call` nodes (juxtaposition such as `(1)(2)`, necessarily with
zero or one argument since a comma never passes the filter); and the empty
`Tuple` `()`.  Identifiers, attributes, subscripts, strings etc. all need
characters outside the class. -/

inductive UOp where
  | uadd
  | usub
deriving DecidableEq, Repr

inductive BOp where
  | add
  | sub
  | mult
  | div
  | floorDiv
  | modOp
  | pow
deriving DecidableEq, Repr

inductive Node where
  | const (v : PyVal)
  | unaryOp (op : UOp) (x : Node)
  | binOp (op : BOp) (l r : Node)
  | call0 (f : Node)
  | call1 (f : Node) (a : Node)
  | emptyTuple
deriving DecidableEq, Repr

/-! ### `_ALLOWED_OPS` (lines 47-55)

The dictionary is keyed by AST operator type; membership of a node type in
it is a boolean on the operator, and the mapped `operator`-module functions
are the arithmetic of `applyUn`/`applyBin` below.  `ast.USub` is present but
`ast.UAdd` is not; `ast.FloorDiv` is not. -/

def allowedUn : UOp → Bool
  | .usub => true
  | .uadd => false

def allowedBin : BOp → Bool
  | .add => true
  | .sub => true
  | .mult => true
  | .div => true
  | .pow => true
  | .modOp => true
  | .floorDiv => false

/-! ### The `operator`-module arithmetic applied on lines 61 and 63 -/

/-- Numeric content of a value (the `ellipsisVal` branch is unreachable at
its use sites, which test for `ellipsisVal` first). -/
def toQ : PyVal → ℚ
  | .intV n => (n : ℚ)
  | .floatV q => q
  | .ellipsisVal => 0

def PyVal.isFloatV : PyVal → Bool
  | .floatV _ => true
  | _ => false

/-- Message of the `TypeError` raised by arithmetic on `Ellipsis`; CPython
spells the operand types into it, which no claim tests. -/
def typeMsg : String := "unsupported operand type(s)"

/-- Message of the `ZeroDivisionError` of `x / 0`: CPython says
"division by zero" for `int / int` and "float division by zero" otherwise. -/
def divZeroMsg (a b : PyVal) : String :=
  if a.isFloatV || b.isFloatV then "float division by zero" else "division by zero"

/-- Message of the `ZeroDivisionError` of `0 ** negative`. -/
def powZeroMsg : String := "0.0 cannot be raised to a negative power"

/-- Function `operator.neg` (the only unary operator in `_ALLOWED_OPS`); `uadd`
models `+x`, which the allow-list guard makes unreachable. -/
def applyUn : UOp → PyVal → Outcome
  | _, .ellipsisVal => .exc (.typeErr typeMsg)
  | .usub, .intV n => .val (.intV (-n))
  | .usub, .floatV q => .val (.floatV (-q))
  | .uadd, v => .val v

/-- The binary functions of `_ALLOWED_OPS` (`operator.add`, `sub`, `mul`,
`truediv`, `pow`, `mod`), plus `floorDiv`, which the guard never applies.
Python `%` and `//` on integers are floor-based (`Int.fmod`, `Int.fdiv`).
A `**` with a non-integer exponent and nonzero base is real/complex valued
and yields the abstraction marker `unk`; exception-message texts other than
the ones above vary across CPython versions and are abbreviated. -/
def applyBin : BOp → PyVal → PyVal → Outcome
  | _, .ellipsisVal, _ => .exc (.typeErr typeMsg)
  | _, _, .ellipsisVal => .exc (.typeErr typeMsg)
  | .add, .intV m, .intV n => .val (.intV (m + n))
  | .add, a, b => .val (.floatV (toQ a + toQ b))
  | .sub, .intV m, .intV n => .val (.intV (m - n))
  | .sub, a, b => .val (.floatV (toQ a - toQ b))
  | .mult, .intV m, .intV n => .val (.intV (m * n))
  | .mult, a, b => .val (.floatV (toQ a * toQ b))
  | .div, a, b =>
      if toQ b = 0 then .exc (.zeroDiv (divZeroMsg a b))
      else .val (.floatV (toQ a / toQ b))
  | .modOp, .intV m, .intV n =>
      if n = 0 then .exc (.zeroDiv "integer division or modulo by zero")
      else .val (.intV (Int.fmod m n))
  | .modOp, a, b =>
      if toQ b = 0 then .exc (.zeroDiv "float modulo")
      else .val (.floatV (toQ a - toQ b * ((Rat.floor (toQ a / toQ b) : ℤ) : ℚ)))
  | .floorDiv, .intV m, .intV n =>
      if n = 0 then .exc (.zeroDiv "integer division or modulo by zero")
      else .val (.intV (Int.fdiv m n))
  | .floorDiv, a, b =>
      if toQ b = 0 then .exc (.zeroDiv "float floor division by zero")
      else .val (.floatV ((Rat.floor (toQ a / toQ b) : ℤ) : ℚ))
  | .pow, .intV m, .intV n =>
      if 0 ≤ n then .val (.intV (m ^ n.toNat))
      else if m = 0 then .exc (.zeroDiv powZeroMsg)
      else .val (.floatV (((m : ℚ) ^ (-n).toNat)⁻¹))
  | .pow, a, b =>
      let qa := toQ a
      let qe := toQ b
      if qe.den = 1 then
        if qa = 0 then
          if 0 ≤ qe.num then .val (.floatV (if qe.num = 0 then 1 else 0))
          else .exc (.zeroDiv powZeroMsg)
        else if 0 ≤ qe.num then .val (.floatV (qa ^ qe.num.toNat))
        else .val (.floatV ((qa ^ (-qe.num).toNat)⁻¹))
      else
        if qa = 0 then
          if 0 < qe then .val (.floatV 0) else .exc (.zeroDiv powZeroMsg)
        else .unk

/-! ### `_eval_ast` (lines 57-64) -/

/-- Recursive evaluator `_eval_ast`: a `Constant` returns its value (line 59); a `UnaryOp` or
`BinOp` whose operator type is in `_ALLOWED_OPS` applies the mapped function
to the recursively evaluated children (lines 60-63, children evaluated left
to right, an exception propagating immediately); every other node — and
every `UnaryOp`/`BinOp` with an operator outside the allow-list — raises
`ValueError("Unsupported expression")` (line 64) without its children being
evaluated. -/
def evalAst : Node → Outcome
  | .const v => .val v
  | .unaryOp op x =>
      if allowedUn op then
        match evalAst x with
        | .val v => applyUn op v
        | .exc e => .exc e
        | .unk => .unk
        | .excUnk => .excUnk
      else .exc .unsupported
  | .binOp op l r =>
      if allowedBin op then
        match evalAst l, evalAst r with
        | .exc e, _ => .exc e
        | .excUnk, _ => .excUnk
        | .val _, .exc e => .exc e
        | .val _, .excUnk => .excUnk
        | .val a, .val b => applyBin op a b
        | .val _, .unk => .unk
        | .unk, .exc _ => .excUnk
        | .unk, .excUnk => .excUnk
        | .unk, _ => .unk
      else .exc .unsupported
  | .call0 _ => .exc .unsupported
  | .call1 _ _ => .exc .unsupported
  | .emptyTuple => .exc .unsupported

/-! ### `ast.parse(expr, mode="eval")` over the filtered character set

An executable model of the CPython tokenizer and expression grammar
restricted to the characters that pass the filter.  Number literals are the
ASCII decimal int and pointfloat forms (no exponent letter, no underscore:
those characters never pass the filter); a decimal integer literal with a
leading zero other than all-zeros is a syntax error; `...` is the Ellipsis
constant.  Precedence and associativity follow the Python grammar:
`+ -` < `* / // %` < unary `+ -` < `**` (right associative, its exponent
parsed at unary level), with call trailers binding tightest.  Newlines are
treated as plain whitespace (CPython line-structure rules never matter for a
single-line expression, which every claim is about), and all syntax-error
messages are collapsed to one fixed text, which no claim tests.  The caret
never reaches the parser from `eval_expression` (it is rewritten to `**`
first), so it is lexed as a syntax error here; `ast.BitXor` is unreachable. -/

def syntaxMsg : String := "invalid syntax"

inductive Tok where
  | numT (v : PyVal)
  | ellT
  | lpT
  | rpT
  | plusT
  | minusT
  | mulT
  | divT
  | fdivT
  | modT
  | powT
deriving DecidableEq, Repr

def natOfDigits (ds : List Char) : ℕ :=
  ds.foldl (fun a c => 10 * a + (c.toNat - 48)) 0

/-- The tokenizer (fuel-indexed; the fuel is decremented once per consumed
character, so `length + 1` always suffices). -/
def tokenize : ℕ → List Char → Except String (List Tok)
  | 0, _ => .error syntaxMsg
  | _ + 1, [] => .ok []
  | fuel + 1, c :: cs =>
    if isSpaceB c then tokenize fuel cs
    else if isDigitB c then
      let ds := (c :: cs).takeWhile isDigitB
      let rest := (c :: cs).dropWhile isDigitB
      match rest with
      | '.' :: rest2 =>
          let fs := rest2.takeWhile isDigitB
          let rest3 := rest2.dropWhile isDigitB
          do
            let ts ← tokenize fuel rest3
            .ok (.numT (.floatV ((natOfDigits ds : ℚ) + (natOfDigits fs : ℚ) / (10 : ℚ) ^ fs.length)) :: ts)
      | _ =>
          if ds.head? = some '0' && ds.any (fun d => d != '0') then .error syntaxMsg
          else do
            let ts ← tokenize fuel rest
            .ok (.numT (.intV (natOfDigits ds)) :: ts)
    else if c = '.' then
      match cs with
      | '.' :: '.' :: rest => do
          let ts ← tokenize fuel rest
          .ok (.ellT :: ts)
      | d :: _ =>
          if isDigitB d then
            let fs := cs.takeWhile isDigitB
            let rest := cs.dropWhile isDigitB
            do
              let ts ← tokenize fuel rest
              .ok (.numT (.floatV ((natOfDigits fs : ℚ) / (10 : ℚ) ^ fs.length)) :: ts)
          else .error syntaxMsg
      | _ => .error syntaxMsg
    else if c = '*' then
      match cs with
      | '*' :: rest => do
          let ts ← tokenize fuel rest
          .ok (.powT :: ts)
      | _ => do
          let ts ← tokenize fuel cs
          .ok (.mulT :: ts)
    else if c = '/' then
      match cs with
      | '/' :: rest => do
          let ts ← tokenize fuel rest
          .ok (.fdivT :: ts)
      | _ => do
          let ts ← tokenize fuel cs
          .ok (.divT :: ts)
    else if c = '+' then do
      let ts ← tokenize fuel cs
      .ok (.plusT :: ts)
    else if c = '-' then do
      let ts ← tokenize fuel cs
      .ok (.minusT :: ts)
    else if c = '%' then do
      let ts ← tokenize fuel cs
      .ok (.modT :: ts)
    else if c = '(' then do
      let ts ← tokenize fuel cs
      .ok (.lpT :: ts)
    else if c = ')' then do
      let ts ← tokenize fuel cs
      .ok (.rpT :: ts)
    else .error syntaxMsg

/-- Recursive-descent modes: expression, expression loop (`+ -`), term, term
loop (`* / // %`), unary factor, power, primary, call-trailer loop, atom.
The loop and trailer modes carry the node accumulated so far. -/
inductive PMode where
  | pe
  | peL (acc : Node)
  | pt
  | ptL (acc : Node)
  | pf
  | pw
  | pp
  | ptr (f : Node)
  | pa

/-- The parser for the reachable grammar (one function, fuel-indexed so that
the recursion is structural and kernel-reducible). -/
def runP : ℕ → PMode → List Tok → Except String (Node × List Tok)
  | 0, _, _ => .error syntaxMsg
  | fuel + 1, mode, ts =>
    match mode, ts with
    | .pe, _ => do
        let (l, ts1) ← runP fuel .pt ts
        runP fuel (.peL l) ts1
    | .peL acc, .plusT :: ts1 => do
        let (r, ts2) ← runP fuel .pt ts1
        runP fuel (.peL (.binOp .add acc r)) ts2
    | .peL acc, .minusT :: ts1 => do
        let (r, ts2) ← runP fuel .pt ts1
        runP fuel (.peL (.binOp .sub acc r)) ts2
    | .peL acc, _ => .ok (acc, ts)
    | .pt, _ => do
        let (l, ts1) ← runP fuel .pf ts
        runP fuel (.ptL l) ts1
    | .ptL acc, .mulT :: ts1 => do
        let (r, ts2) ← runP fuel .pf ts1
        runP fuel (.ptL (.binOp .mult acc r)) ts2
    | .ptL acc, .divT :: ts1 => do
        let (r, ts2) ← runP fuel .pf ts1
        runP fuel (.ptL (.binOp .div acc r)) ts2
    | .ptL acc, .fdivT :: ts1 => do
        let (r, ts2) ← runP fuel .pf ts1
        runP fuel (.ptL (.binOp .floorDiv acc r)) ts2
    | .ptL acc, .modT :: ts1 => do
        let (r, ts2) ← runP fuel .pf ts1
        runP fuel (.ptL (.binOp .modOp acc r)) ts2
    | .ptL acc, _ => .ok (acc, ts)
    | .pf, .plusT :: ts1 => do
        let (x, ts2) ← runP fuel .pf ts1
        .ok (.unaryOp .uadd x, ts2)
    | .pf, .minusT :: ts1 => do
        let (x, ts2) ← runP fuel .pf ts1
        .ok (.unaryOp .usub x, ts2)
    | .pf, _ => runP fuel .pw ts
    | .pw, _ => do
        let (b, ts1) ← runP fuel .pp ts
        match ts1 with
        | .powT :: ts2 => do
            let (e, ts3) ← runP fuel .pf ts2
            .ok (.binOp .pow b e, ts3)
        | _ => .ok (b, ts1)
    | .pp, _ => do
        let (a, ts1) ← runP fuel .pa ts
        runP fuel (.ptr a) ts1
    | .ptr f, .lpT :: .rpT :: ts1 => runP fuel (.ptr (.call0 f)) ts1
    | .ptr f, .lpT :: ts1 => do
        let (a, ts2) ← runP fuel .pe ts1
        match ts2 with
        | .rpT :: ts3 => runP fuel (.ptr (.call1 f a)) ts3
        | _ => .error syntaxMsg
    | .ptr f, _ => .ok (f, ts)
    | .pa, .numT v :: ts1 => .ok (.const v, ts1)
    | .pa, .ellT :: ts1 => .ok (.const .ellipsisVal, ts1)
    | .pa, .lpT :: .rpT :: ts1 => .ok (.emptyTuple, ts1)
    | .pa, .lpT :: ts1 => do
        let (e, ts2) ← runP fuel .pe ts1
        match ts2 with
        | .rpT :: ts3 => .ok (e, ts3)
        | _ => .error syntaxMsg
    | .pa, _ => .error syntaxMsg

/-- Model of `ast.parse(expr, mode="eval")`: tokenize, parse one expression, require
that every token was consumed. -/
def pyParse (l : List Char) : Except String Node := do
  let ts ← tokenize (l.length + 1) l
  let (n, rest) ← runP (8 * (ts.length + 1)) .pe ts
  if rest.isEmpty then pure n else .error syntaxMsg

/-! ### `eval_expression` (lines 66-76) -/

/-- Python `str(value)` for the values `_eval_ast` can return.  An integer prints
as in Python; the idealized float prints as the exact rational (CPython
prints the shortest decimal that round-trips through the nearest double —
the spec accepts either form as the same numeric result); `str(Ellipsis)`
is `"Ellipsis"`. -/
def pyStr : PyVal → String
  | .intV n => toString n
  | .floatV q => toString q
  | .ellipsisVal => "Ellipsis"

/-- The string returned by `eval_expression`, with the two abstraction
markers kept apart: `output s` is the exact returned string; `someError`
stands for `"Error: " ++ m` with an untracked message `m`; `untracked`
stands for a return value the exact-rational model does not determine. -/
inductive ToolResult where
  | output (s : String)
  | someError
  | untracked
deriving DecidableEq, Repr

def renderOutcome : Outcome → ToolResult
  | .val v => .output (pyStr v)
  | .exc e => .output ("Error: " ++ excMsg e)
  | .unk => .untracked
  | .excUnk => .someError

/-- The body of `eval_expression` (lines 70-76) after the preprocessing of
line 69: reject an expression with a character outside the filter class (or
an empty one — the regex demands at least one character) with
`"Error: arithmetic only"`; otherwise parse and evaluate, turning any raised
exception `e` into the string `f"Error: {e}"`. -/
def evalFiltered (expr : List Char) : ToolResult :=
  if expr.isEmpty || !(expr.all isAllowedChar) then .output "Error: arithmetic only"
  else
    match pyParse expr with
    | .error m => .output ("Error: " ++ m)
    | .ok t => renderOutcome (evalAst t)

/-- Tool `eval_expression` (lines 66-76): `expression.strip().replace("^", "**")`
followed by the filtered parse-and-evaluate above. -/
def eval_expression (expression : String) : ToolResult :=
  evalFiltered (replaceCaret (pyStrip expression.data))

/-! ### Syntactic predicates on parse trees -/

/-- Returns `true` iff the tree has a node at which line 64 would raise — that is, a
node that is not a `Constant` and not a `UnaryOp`/`BinOp` whose operator
type is in `_ALLOWED_OPS`. -/
def containsRejected : Node → Bool
  | .const _ => false
  | .unaryOp op x => !allowedUn op || containsRejected x
  | .binOp op l r => !allowedBin op || containsRejected l || containsRejected r
  | .call0 _ => true
  | .call1 _ _ => true
  | .emptyTuple => true

def isUAddB : UOp → Bool
  | .uadd => true
  | .usub => false

/-- Returns `true` iff the tree contains a unary-plus (`ast.UAdd`) node. -/
def containsUAdd : Node → Bool
  | .const _ => false
  | .unaryOp op x => isUAddB op || containsUAdd x
  | .binOp _ l r => containsUAdd l || containsUAdd r
  | .call0 f => containsUAdd f
  | .call1 f a => containsUAdd f || containsUAdd a
  | .emptyTuple => false

/-- The outcome is certainly a raised exception. -/
def isExcOutcome : Outcome → Bool
  | .exc _ => true
  | .excUnk => true
  | _ => false

/-- The tool result is an error string `"Error: " ++ m`. -/
def isErrorResult (r : ToolResult) : Prop :=
  (∃ m, r = .output ("Error: " ++ m)) ∨ r = .someError

/-! ## Part 2 — the agent-orchestration runtime

The source file configures agents, a guardrail and a handoff and then calls
`Runner.run` of the external Agents SDK.  The run loop, guardrail engine and
handoff resolver themselves are not code of this repository, so they are
modelled from the specification (sections 4.1-4.4 and 7); each such
definition is marked.  The agent and guardrail declarations themselves
(lines 78-87, 113-137, 145-157 of the source) are embedded from the source. -/

/-- Schema `YarGuardOutput` (lines 113-115): the guardrail agent output schema. -/
structure YarGuardOutput where
  is_blocked : Bool
  reasoning : String
deriving DecidableEq, Repr

/-- The value `result.final_output.model_dump()` (line 135), rendered as an opaque
string; no claim tests its text. -/
def yarDump (y : YarGuardOutput) : String :=
  "is_blocked=" ++ toString y.is_blocked ++ " reasoning=" ++ y.reasoning

/-- Structure `GuardrailFunctionOutput` of the SDK as used on lines 134-137. -/
structure GuardrailFunctionOutput where
  output_info : String
  tripwire_triggered : Bool
deriving DecidableEq, Repr

/-- Guardrail function `tasha_guardrail` (lines 129-137), given the already-validated
structured output of the guardrail agent: the tripwire is
`bool(result.final_output.is_blocked)` and the info is the model dump. -/
def tasha_guardrail (out : YarGuardOutput) : GuardrailFunctionOutput :=
  { output_info := yarDump out, tripwire_triggered := out.is_blocked }

/-- Modelled from the spec (§4.1): the structured output of a
guardrail-as-sub-agent run after schema validation — either a validated
`YarGuardOutput` or a schema-validation failure carrying the raw output. -/
inductive GuardSubOut where
  | structuredOk (y : YarGuardOutput)
  | schemaFail (raw : String)

/-- Modelled from the spec (§4.1): a guardrail evaluation result — a verdict
`{triggered, rationale}` or a distinguished `GuardrailMalformed` failure. -/
inductive GuardrailEval where
  | verdict (triggered : Bool) (rationale : String)
  | malformed (raw : String)
deriving DecidableEq, Repr

/-- Modelled from the spec (§2, §4.1): a registered guardrail — name,
abort-on-trigger policy flag, and evaluation procedure. -/
structure Guardrail where
  name : String
  abortOnTrigger : Bool
  eval : String → GuardrailEval

/-- The Tasha Yar guardrail as registered on line 154: an input guardrail
with abort-on-trigger semantics whose evaluation runs the guardrail
sub-agent (`sub` is that sub-agent invocation, an oracle) and interprets its
validated output through `tasha_guardrail`; per spec §4.1, a
schema-validation failure is the distinguished malformed outcome. -/
def tashaGuard (sub : String → GuardSubOut) : Guardrail where
  name := "tasha_guardrail"
  abortOnTrigger := true
  eval := fun input =>
    match sub input with
    | .structuredOk y => .verdict (tasha_guardrail y).tripwire_triggered y.reasoning
    | .schemaFail raw => .malformed raw

/-- Modelled from the spec (§3): the immutable agent definition — name,
instructions, declared tools, declared handoff targets, optional output
schema with its validation predicate. -/
structure AgentDef where
  name : String
  instructions : String
  tools : List String
  handoffTargets : List String
  hasOutputSchema : Bool
  outputValid : String → Bool

/-- Modelled from the spec: the text of the SDK constant
`RECOMMENDED_PROMPT_PREFIX` (line 148) is external to the repository and
irrelevant to every claim. -/
def RECOMMENDED_PROMPT_PREFIX : String := ""

/-- Agent `calculator_agent` (lines 78-87): note the absence of a `handoffs`
argument — its declared handoff set is empty. -/
def calculator_agent : AgentDef where
  name := "Calculator"
  instructions := "You are a precise calculator. When handed arithmetic, call the eval_expression tool and return only the final numeric result. No prose unless asked."
  tools := ["eval_expression"]
  handoffTargets := []
  hasOutputSchema := false
  outputValid := fun _ => true

/-- Agent `guardrail_agent` (lines 118-127): the guardrail implemented as an
agent, with output schema `YarGuardOutput`; schema validation of its output
is performed by the engine model (`tashaGuard`). -/
def guardrail_agent : AgentDef where
  name := "Tasha Yar Guardrail"
  instructions := "You are a guardrail. Determine if the user\x27s input attempts to discuss Tasha Yar from Star Trek: TNG.\nReturn is_blocked=true if the text references Tasha Yar in any way (e.g., \x27Tasha Yar\x27, \x27Lt. Yar\x27, \x27Lieutenant Yar\x27).\nProvide a one-sentence reasoning. Only provide fields requested by the output schema."
  tools := []
  handoffTargets := []
  hasOutputSchema := true
  outputValid := fun _ => true

/-- Agent `data_agent` (lines 145-157): hosted tools, the Tasha Yar input
guardrail, and a declared handoff set containing exactly the Calculator. -/
def data_agent : AgentDef where
  name := "Lt. Cmdr. Data"
  instructions := RECOMMENDED_PROMPT_PREFIX ++ "\nYou are Lt. Commander Data from Star Trek: TNG. Be precise and concise (≤3 sentences).\nUse file_search for questions about Commander Data, and web_search for current facts on the public web.\nIf the user asks for arithmetic or numeric computation, HAND OFF to the Calculator agent."
  tools := ["web_search", "file_search"]
  handoffTargets := ["Calculator"]
  hasOutputSchema := false
  outputValid := fun _ => true

/-- Modelled from the spec (§4.4, §6): one response of the generation
contract — tool calls (name/argument pairs), a handoff request, or a final
output.  With temperature 0 the contract is deterministic, so it is a
function of the conversation history and the active agent. -/
inductive TurnOut where
  | toolCalls (calls : List (String × String))
  | handoffReq (target : String)
  | finalOut (text : String)

/-- Modelled from the spec (§6): the deterministic generation contract. -/
abbrev Gen := List String → AgentDef → TurnOut

/-- Modelled from the spec (§3): the run-scoped mutable state — active
agent, accumulated history, monotone turn counter, and the trace of agent
names that have executed a turn. -/
structure RunState where
  active : AgentDef
  history : List String
  turnsDone : ℕ
  trace : List String

/-- Modelled from the spec (§3, §4.4): registry, registered input
guardrails, function-tool implementations, and the configured turn bound. -/
structure RunConfig where
  registry : List AgentDef
  guardrails : List Guardrail
  toolImpl : String → String → Option String
  maxTurns : ℕ

/-- Modelled from the spec (§7): the fatal error kinds of the run loop. -/
inductive FatalKind where
  | unauthorizedHandoff (target : String)
  | turnLimitExceeded
  | outputValidationFailed
deriving DecidableEq, Repr

/-- Modelled from the spec (§4.4, §7): the terminal outcome of a run —
guardrail-tripped abort (with the offending guardrail name and rationale),
a final output with its producing agent, or a fatal structural error. -/
inductive RunOutcome where
  | tripped (guardrailName rationale : String)
  | done (output producedBy : String)
  | fatal (k : FatalKind)
deriving DecidableEq, Repr

/-- Modelled from the spec (§4.2): invoking one declared tool; the result
(success or error text) is a string fed back into the conversation, never an
exception. -/
def toolResultString (cfg : RunConfig) (ag : AgentDef) (call : String × String) : String :=
  if call.1 ∈ ag.tools then
    match cfg.toolImpl call.1 call.2 with
    | some r => r
    | none => "Error: unknown tool"
  else "Error: tool not available"

/-- Modelled from the spec (§3): the registry resolves names to agent
definitions. -/
def findAgent (reg : List AgentDef) (n : String) : Option AgentDef :=
  reg.find? (fun a => a.name == n)

/-- Modelled from the spec (§4.3, §4.4): the orchestrator run loop.  The
fuel is the number of turns still allowed; exhausting it is the fatal
`TurnLimitExceeded`.  A tool-call response appends the tool results to the
history (in call-issue order) and loops; a handoff to a declared, registered
target switches the active agent, carrying the history forward unmodified;
an undeclared (or unregistered) target is the fatal
`HandoffError{UnauthorizedTarget}`; a final output is validated against the
active agent output schema, a mismatch being the fatal
`OutputValidationFailed`.  The returned triple is (outcome, turn count,
trace of acting agents). -/
def runLoop (cfg : RunConfig) (gen : Gen) : ℕ → RunState → RunOutcome × ℕ × List String
  | 0, st => (.fatal .turnLimitExceeded, st.turnsDone, st.trace)
  | fuel + 1, st =>
    let trace1 := st.trace ++ [st.active.name]
    match gen st.history st.active with
    | .finalOut t =>
        if st.active.hasOutputSchema && !(st.active.outputValid t) then
          (.fatal .outputValidationFailed, st.turnsDone + 1, trace1)
        else (.done t st.active.name, st.turnsDone + 1, trace1)
    | .toolCalls cs =>
        runLoop cfg gen fuel
          { active := st.active
            history := st.history ++ cs.map (toolResultString cfg st.active)
            turnsDone := st.turnsDone + 1
            trace := trace1 }
    | .handoffReq tgt =>
        if tgt ∈ st.active.handoffTargets then
          match findAgent cfg.registry tgt with
          | some next =>
              runLoop cfg gen fuel
                { active := next
                  history := st.history
                  turnsDone := st.turnsDone + 1
                  trace := trace1 }
          | none => (.fatal (.unauthorizedHandoff tgt), st.turnsDone + 1, trace1)
        else (.fatal (.unauthorizedHandoff tgt), st.turnsDone + 1, trace1)

/-- Modelled from the spec (§4.1): whether a guardrail both triggers on the
input and carries the abort policy. -/
def isAbortTrigger (g : Guardrail) (input : String) : Bool :=
  match g.eval input with
  | .verdict true _ => g.abortOnTrigger
  | _ => false

/-- Modelled from the spec (§4.1): the aggregation rule — the first
abort-on-trigger guardrail reporting `triggered = true` short-circuits the
run, returning its name and rationale; malformed and non-triggered verdicts
do not block. -/
def firstAbort : List Guardrail → String → Option (String × String)
  | [], _ => none
  | g :: rest, input =>
    match g.eval input with
    | .verdict true r => if g.abortOnTrigger then some (g.name, r) else firstAbort rest input
    | _ => firstAbort rest input

/-- Modelled from the spec (§3): the terminal run artifact, including the
recorded verdict/malformed log of every registered guardrail. -/
structure RunResult where
  outcome : RunOutcome
  agentTurns : ℕ
  trace : List String
  guardrailLog : List (String × GuardrailEval)
deriving DecidableEq, Repr

/-- Modelled from the spec (§4.4): a full run — evaluate and record every
registered guardrail against the input; if an abort-on-trigger guardrail
tripped, abort with zero agent turns; otherwise enter the run loop with the
entry agent and the input as initial history. -/
def runEntry (cfg : RunConfig) (gen : Gen) (entry : AgentDef) (input : String) : RunResult :=
  let log := cfg.guardrails.map (fun g => (g.name, g.eval input))
  match firstAbort cfg.guardrails input with
  | some p => { outcome := .tripped p.1 p.2, agentTurns := 0, trace := [], guardrailLog := log }
  | none =>
      let r := runLoop cfg gen cfg.maxTurns
        { active := entry, history := [input], turnsDone := 0, trace := [] }
      { outcome := r.1, agentTurns := r.2.1, trace := r.2.2, guardrailLog := log }

/-- The producing-agent identity of an outcome, when a final output exists. -/
def producedByOf : RunOutcome → Option String
  | .done _ p => some p
  | _ => none

/-! ### Concrete instances used by the witnesses -/

/-- A deterministic generation oracle that immediately produces a final
output. -/
def demoGen : Gen := fun _ _ => .finalOut "Functioning within normal parameters."

/-- Guardrail sub-agent oracle: a validated blocking verdict. -/
def subYes : String → GuardSubOut :=
  fun _ => .structuredOk { is_blocked := true, reasoning := "The input mentions Tasha Yar." }

/-- Guardrail sub-agent oracle: structured output failing schema validation. -/
def subBad : String → GuardSubOut := fun _ => .schemaFail "not a YarGuardOutput"

/-- Guardrail sub-agent oracle: a validated non-blocking verdict. -/
def subNo : String → GuardSubOut :=
  fun _ => .structuredOk { is_blocked := false, reasoning := "No mention of Tasha Yar." }

/-- The run configuration assembled by the source: both agents registered,
the Tasha Yar guardrail on the entry agent, the calculator function tool
(the untracked branch of the exact-rational tool model maps to `none` and is
exercised by no witness), and a turn bound. -/
def demoCfg (sub : String → GuardSubOut) : RunConfig where
  registry := [data_agent, calculator_agent]
  guardrails := [tashaGuard sub]
  toolImpl := fun n a =>
    if n = "eval_expression" then
      match eval_expression a with
      | .output s => some s
      | _ => none
    else none
  maxTurns := 10

/-- Two minimal agents declaring each other as handoff targets, for the
bounded ping-pong scenario of the spec. -/
def agA : AgentDef where
  name := "A"
  instructions := "always hand off to B"
  tools := []
  handoffTargets := ["B"]
  hasOutputSchema := false
  outputValid := fun _ => true

def agB : AgentDef where
  name := "B"
  instructions := "always hand off to A"
  tools := []
  handoffTargets := ["A"]
  hasOutputSchema := false
  outputValid := fun _ => true

def pingCfg : RunConfig where
  registry := [agA, agB]
  guardrails := []
  toolImpl := fun _ _ => none
  maxTurns := 7

/-- A generation oracle under which the two agents keep handing off to each
other. -/
def genPing : Gen := fun _ ag => if ag.name = "A" then .handoffReq "B" else .handoffReq "A"

/-- A mid-run state in which the Calculator is active. -/
def stCalc : RunState where
  active := calculator_agent
  history := ["Compute ((2*8)^2)/3"]
  turnsDone := 1
  trace := ["Lt. Cmdr. Data"]

/-- A generation oracle that requests a handoff back to the Data agent. -/
def genBack : Gen := fun _ _ => .handoffReq "Lt. Cmdr. Data"

/-- A generation oracle that issues one calculator tool call. -/
def genCalc : Gen := fun _ _ => .toolCalls [("eval_expression", "((2*8)^2)/3")]

/-! ## Helper lemmas -/

theorem mem_dropWhile_of_neg {c : Char} {p : Char → Bool} {l : List Char}
    (hm : c ∈ l) (hp : p c = false) : c ∈ l.dropWhile p := by
  induction l with
  | nil => cases hm
  | cons h t ih =>
    by_cases hph : p h = true
    · rw [List.dropWhile_cons_of_pos hph]
      rcases List.mem_cons.mp hm with heq | hm2
      · rw [heq, hph] at hp; cases hp
      · exact ih hm2
    · rw [List.dropWhile_cons_of_neg hph]
      exact hm

theorem mem_pyStrip {c : Char} {l : List Char}
    (hm : c ∈ l) (hs : isSpaceB c = false) : c ∈ pyStrip l := by
  unfold pyStrip
  rw [List.mem_reverse]
  apply mem_dropWhile_of_neg _ hs
  rw [List.mem_reverse]
  exact mem_dropWhile_of_neg hm hs

theorem mem_replaceCaret {c : Char} {l : List Char}
    (hm : c ∈ l) (hc : c ≠ '^') : c ∈ replaceCaret l := by
  induction l with
  | nil => cases hm
  | cons h t ih =>
    rcases List.mem_cons.mp hm with heq | hm2
    · subst heq
      rw [replaceCaret, if_neg hc]
      exact List.mem_cons_self _ _
    · by_cases hh : h = '^'
      · rw [replaceCaret, if_pos hh]
        exact List.mem_cons_of_mem _ (List.mem_cons_of_mem _ (ih hm2))
      · rw [replaceCaret, if_neg hh]
        exact List.mem_cons_of_mem _ (ih hm2)

theorem identChar_not_allowed {c : Char} (h : isIdentChar c = true) :
    isAllowedChar c = false := by
  simp only [isIdentChar, isAllowedChar, isDigitB, isSpaceB, Bool.or_eq_true,
    Bool.and_eq_true, decide_eq_true_eq] at *
  simp only [Bool.or_eq_false_iff, Bool.and_eq_false_iff, decide_eq_false_iff_not]
  omega

theorem identChar_not_space {c : Char} (h : isIdentChar c = true) :
    isSpaceB c = false := by
  simp only [isIdentChar, isSpaceB, Bool.or_eq_true, Bool.and_eq_true,
    decide_eq_true_eq] at *
  simp only [Bool.or_eq_false_iff, decide_eq_false_iff_not]
  omega

theorem identChar_ne_caret {c : Char} (h : isIdentChar c = true) : c ≠ '^' := by
  intro he
  subst he
  cases h

/-! Lemmas about `replaceCaret` for the `^`-normalization claim. -/

theorem replaceCaret_append (a b : List Char) :
    replaceCaret (a ++ b) = replaceCaret a ++ replaceCaret b := by
  induction a with
  | nil => rfl
  | cons c cs ih => by_cases h : c = '^' <;> simp [replaceCaret, h, ih]

theorem replaceCaret_reverse (l : List Char) :
    (replaceCaret l).reverse = replaceCaret l.reverse := by
  induction l with
  | nil => rfl
  | cons c cs ih =>
    by_cases h : c = '^' <;>
      simp [replaceCaret, h, replaceCaret_append, ih]

theorem dropWhile_replaceCaret (l : List Char) :
    (replaceCaret l).dropWhile isSpaceB = replaceCaret (l.dropWhile isSpaceB) := by
  induction l with
  | nil => rfl
  | cons c cs ih =>
    by_cases h : c = '^'
    · subst h
      have hl : replaceCaret ( '^' :: cs) = '*' :: '*' :: replaceCaret cs := rfl
      rw [hl, List.dropWhile_cons_of_neg (by decide), List.dropWhile_cons_of_neg (by decide), hl]
    · by_cases hs : isSpaceB c = true
      · have hl : replaceCaret (c :: cs) = c :: replaceCaret cs := by
          rw [replaceCaret, if_neg h]
        rw [hl, List.dropWhile_cons_of_pos hs, List.dropWhile_cons_of_pos hs, ih]
      · have hl : replaceCaret (c :: cs) = c :: replaceCaret cs := by
          rw [replaceCaret, if_neg h]
        rw [hl, List.dropWhile_cons_of_neg (by simp [hs]), List.dropWhile_cons_of_neg (by simp [hs]), hl]

theorem pyStrip_replaceCaret (l : List Char) :
    pyStrip (replaceCaret l) = replaceCaret (pyStrip l) := by
  unfold pyStrip
  rw [dropWhile_replaceCaret, replaceCaret_reverse, dropWhile_replaceCaret,
    replaceCaret_reverse]

theorem not_caret_mem_replaceCaret {c : Char} {l : List Char}
    (hm : c ∈ replaceCaret l) : c ≠ '^' := by
  induction l with
  | nil => cases hm
  | cons h t ih =>
    by_cases hh : h = '^'
    · rw [replaceCaret, if_pos hh] at hm
      rcases List.mem_cons.mp hm with heq | hm2
      · subst heq; decide
      · rcases List.mem_cons.mp hm2 with heq | hm3
        · subst heq; decide
        · exact ih hm3
    · rw [replaceCaret, if_neg hh] at hm
      rcases List.mem_cons.mp hm with heq | hm2
      · subst heq; exact hh
      · exact ih hm2

theorem replaceCaret_of_no_caret {l : List Char}
    (h : ∀ c ∈ l, c ≠ '^') : replaceCaret l = l := by
  induction l with
  | nil => rfl
  | cons c cs ih =>
    rw [replaceCaret, if_neg (h c (List.mem_cons_self _ _))]
    rw [ih fun d hd => h d (List.mem_cons_of_mem _ hd)]

theorem replaceCaret_idem (l : List Char) :
    replaceCaret (replaceCaret l) = replaceCaret l :=
  replaceCaret_of_no_caret fun _ hc => not_caret_mem_replaceCaret hc

/-! Lemmas about the allow-list behaviour of `_eval_ast`. -/

theorem applyUn_ne_unsupported (op : UOp) (v : PyVal) :
    applyUn op v ≠ .exc .unsupported := by
  cases op <;> cases v <;> simp [applyUn]

theorem applyBin_ne_unsupported (op : BOp) (a b : PyVal) :
    applyBin op a b ≠ .exc .unsupported := by
  cases op <;> cases a <;> cases b <;>
    simp only [applyBin] <;> first | (split_ifs <;> simp) | simp

theorem isExcOutcome_iff (o : Outcome) :
    isExcOutcome o = true ↔ (∃ e, o = .exc e) ∨ o = .excUnk := by
  cases o <;> simp [isExcOutcome]

/-- A tree with a node outside the allow-list never evaluates to a value:
its evaluation certainly raises. -/
theorem evalAst_of_rejected (t : Node) (h : containsRejected t = true) :
    isExcOutcome (evalAst t) = true := by
  induction t with
  | const v => cases h
  | unaryOp op x ih =>
    rw [containsRejected, Bool.or_eq_true] at h
    rcases h with h | h
    · rw [Bool.not_eq_true'] at h
      simp [evalAst, h, isExcOutcome]
    · by_cases ha : allowedUn op = true
      · rw [evalAst, if_pos ha]
        rcases (isExcOutcome_iff _).mp (ih h) with ⟨e, he⟩ | he <;> rw [he] <;>
          simp [isExcOutcome]
      · rw [evalAst, if_neg ha]
        rfl
  | binOp op l r ihl ihr =>
    rw [containsRejected, Bool.or_eq_true, Bool.or_eq_true] at h
    by_cases ha : allowedBin op = true
    · rw [evalAst, if_pos ha]
      rcases h with (h | h) | h
      · rw [Bool.not_eq_true'] at h; rw [h] at ha; cases ha
      · rcases (isExcOutcome_iff _).mp (ihl h) with ⟨e, he⟩ | he <;> rw [he] <;>
          simp [isExcOutcome]
      · rcases (isExcOutcome_iff _).mp (ihr h) with ⟨e, he⟩ | he <;> rw [he] <;>
          cases hl : evalAst l <;> simp [isExcOutcome]
    · rw [evalAst, if_neg ha]
      rfl
  | call0 f ih => rfl
  | call1 f a ihf iha => rfl
  | emptyTuple => rfl

/-- A tree built entirely from allow-listed node types never reaches the
`raise ValueError("Unsupported expression")` branch. -/
theorem evalAst_of_allowed (t : Node) (h : containsRejected t = false) :
    evalAst t ≠ .exc .unsupported := by
  induction t with
  | const v => simp [evalAst]
  | unaryOp op x ih =>
    rw [containsRejected, Bool.or_eq_false_iff, Bool.not_eq_false'] at h
    rw [evalAst, if_pos h.1]
    cases hx : evalAst x with
    | val v => exact applyUn_ne_unsupported op v
    | exc e =>
      have := ih h.2
      rw [hx] at this
      simp only [ne_eq, Outcome.exc.injEq]
      intro he
      rw [he] at this
      exact this rfl
    | unk => simp
    | excUnk => simp
  | binOp op l r ihl ihr =>
    rw [containsRejected, Bool.or_eq_false_iff, Bool.or_eq_false_iff,
      Bool.not_eq_false'] at h
    obtain ⟨⟨ha, hl⟩, hr⟩ := h
    rw [evalAst, if_pos ha]
    have hle := ihl hl
    have hre := ihr hr
    cases hxl : evalAst l <;> cases hxr : evalAst r <;>
      simp only [ne_eq, Outcome.exc.injEq] <;>
      first
      | (intro he; rw [hxl] at hle; rw [he] at hle; exact hle rfl)
      | (intro he; rw [hxr] at hre; rw [he] at hre; exact hre rfl)
      | exact applyBin_ne_unsupported op _ _
      | simp
  | call0 f ih => cases h
  | call1 f a ihf iha => cases h
  | emptyTuple => cases h

/-- A unary-plus node is outside the allow-list. -/
theorem containsUAdd_rejected (t : Node) (h : containsUAdd t = true) :
    containsRejected t = true := by
  induction t with
  | const v => cases h
  | unaryOp op x ih =>
    rw [containsUAdd, Bool.or_eq_true] at h
    rw [containsRejected, Bool.or_eq_true]
    rcases h with h | h
    · cases op
      · left; rfl
      · cases h
    · right; exact ih h
  | binOp op l r ihl ihr =>
    rw [containsUAdd, Bool.or_eq_true] at h
    rw [containsRejected]
    rcases h with h | h
    · simp [ihl h]
    · simp [ihr h]
  | call0 f ih => rfl
  | call1 f a ihf iha => rfl
  | emptyTuple => rfl

/-- The filter branch of `eval_expression`: a preprocessed expression
containing a character outside the regex class is rejected. -/
theorem evalFiltered_badchar {expr : List Char}
    (h : expr.all isAllowedChar = false) :
    evalFiltered expr = .output "Error: arithmetic only" := by
  rw [evalFiltered, if_pos]
  rw [h]
  simp

/-! ## Claim C1 -/

/-- C1: `eval_expression` applied to `"((2*8)^2)/3"` returns the numeric
result `256/3` (the exact rational equal to the float CPython prints as
`85.33333333333333`); applied to the string `__import__(\x27os\x27)` — and to any input
containing an identifier or attribute token, i.e. any letter or underscore
character — it returns the rejection `"Error: arithmetic only"` instead of
evaluating it. -/
theorem C1_arith_tool_accepts_and_rejects :
    eval_expression "((2*8)^2)/3" = .output (pyStr (.floatV (256 / 3))) ∧
    eval_expression "__import__(\x27os\x27)" = .output "Error: arithmetic only" ∧
    (∀ s : String, (∃ c ∈ s.data, isIdentChar c = true) →
      eval_expression s = .output "Error: arithmetic only") := by
  refine ⟨rfl, rfl, ?_⟩
  rintro s ⟨c, hc, hid⟩
  unfold eval_expression
  apply evalFiltered_badchar
  have h1 : c ∈ replaceCaret (pyStrip s.data) :=
    mem_replaceCaret (mem_pyStrip hc (identChar_not_space hid)) (identChar_ne_caret hid)
  cases hall : (replaceCaret (pyStrip s.data)).all isAllowedChar
  · rfl
  · have h2 := List.all_eq_true.mp hall c h1
    rw [identChar_not_allowed hid] at h2
    cases h2

/-- Witness for C1: the universally quantified rejection applied to a
concrete input containing identifier characters. -/
theorem C1_witness :
    eval_expression "open(\x27x\x27)" = .output "Error: arithmetic only" :=
  C1_arith_tool_accepts_and_rejects.2.2 "open(\x27x\x27)" ⟨'o', by decide, by decide⟩

/-! ## Claim C2 -/

/-- C2 counterexample: the input `"1/0+(1)(2)"` parses to a tree containing
a `Call` node — a node type outside the allow-list — yet `eval_expression`
does not return the `"Error: Unsupported expression"` rejection for it: the
division by zero on the left is evaluated first and its exception is the
result, so the claimed "error branch always taken for all others" fails. -/
theorem C2_counterexample :
    eval_expression "1/0+(1)(2)" = .output "Error: division by zero" ∧
    eval_expression "1/0+(1)(2)" ≠ .output "Error: Unsupported expression" ∧
    pyParse (replaceCaret (pyStrip ("1/0+(1)(2)" : String).data)) =
      .ok (.binOp .add (.binOp .div (.const (.intV 1)) (.const (.intV 0)))
        (.call1 (.const (.intV 1)) (.const (.intV 2)))) ∧
    containsRejected
      (.binOp .add (.binOp .div (.const (.intV 1)) (.const (.intV 0)))
        (.call1 (.const (.intV 1)) (.const (.intV 2)))) = true :=
  ⟨rfl, by decide, rfl, rfl⟩

/-- C2 (amended): the evaluator walks the tree and accepts only the fixed
allow-list of node types.  (1) A tree containing any node outside the
allow-list never evaluates to a value: its evaluation certainly raises — the
`Unsupported expression` rejection, unless an arithmetic exception raised
earlier in left-to-right evaluation order (such as a division by zero)
preempts it.  (2) For trees built solely from allow-listed node types the
`raise ValueError("Unsupported expression")` branch is unreachable. -/
theorem C2_allowlist_boundary :
    (∀ t : Node, containsRejected t = true → isExcOutcome (evalAst t) = true) ∧
    (∀ t : Node, containsRejected t = false → evalAst t ≠ .exc .unsupported) :=
  ⟨evalAst_of_rejected, evalAst_of_allowed⟩

/-- Witness for C2: both parts applied at concrete trees. -/
theorem C2_witness :
    (containsRejected (Node.call1 (.const (.intV 1)) (.const (.intV 2))) = true ∧
      isExcOutcome (evalAst (Node.call1 (.const (.intV 1)) (.const (.intV 2)))) = true) ∧
    (containsRejected (Node.binOp .add (.const (.intV 1)) (.const (.intV 2))) = false ∧
      evalAst (Node.binOp .add (.const (.intV 1)) (.const (.intV 2))) ≠ .exc .unsupported) :=
  ⟨⟨by decide, C2_allowlist_boundary.1 _ (by decide)⟩,
   ⟨by decide, C2_allowlist_boundary.2 _ (by decide)⟩⟩

/-! ## Claim C8 -/

/-- C8: `eval_expression` normalizes `^` to `**` before parsing — for every
expression string, the result equals the result on the string with every `^`
replaced by `**`; in particular `"2^3"` and `"2**3"` produce the same
result. -/
theorem C8_caret_normalization :
    (∀ s : String, eval_expression s = eval_expression (hatToStars s)) ∧
    eval_expression "2^3" = eval_expression "2**3" := by
  constructor
  · intro s
    show evalFiltered (replaceCaret (pyStrip s.data)) =
      evalFiltered (replaceCaret (pyStrip (hatToStars s).data))
    have hd : (hatToStars s).data = replaceCaret s.data := rfl
    rw [hd, pyStrip_replaceCaret, replaceCaret_idem]
  · decide

/-! ## Claim C10 -/

/-- C10 counterexample: `"1/0++5"` parses to a tree containing a unary-plus
node, yet `eval_expression` returns `"Error: division by zero"`, not
`"Error: Unsupported expression"`: the division by zero on the left is
evaluated before the unary plus is reached. -/
theorem C10_counterexample :
    eval_expression "1/0++5" = .output "Error: division by zero" ∧
    eval_expression "1/0++5" ≠ .output "Error: Unsupported expression" ∧
    pyParse (replaceCaret (pyStrip ("1/0++5" : String).data)) =
      .ok (.binOp .add (.binOp .div (.const (.intV 1)) (.const (.intV 0)))
        (.unaryOp .uadd (.const (.intV 5)))) ∧
    containsUAdd
      (.binOp .add (.binOp .div (.const (.intV 1)) (.const (.intV 0)))
        (.unaryOp .uadd (.const (.intV 5)))) = true :=
  ⟨rfl, by decide, rfl, rfl⟩

/-- C10 (amended): unary plus is outside the allow-list (`USub` is in
`_ALLOWED_OPS`, `UAdd` is not), so an expression whose parse tree contains a
unary-plus node never evaluates to a value: `eval_expression` returns an
`"Error: ..."` result — `"Error: Unsupported expression"` unless an
arithmetic exception raised earlier in evaluation order preempts it; in
particular `"+5"` returns exactly `"Error: Unsupported expression"`. -/
theorem C10_unary_plus_rejected :
    (∀ (s : String) (t : Node),
        pyParse (replaceCaret (pyStrip s.data)) = .ok t →
        containsUAdd t = true →
        isErrorResult (eval_expression s)) ∧
    eval_expression "+5" = .output "Error: Unsupported expression" := by
  constructor
  · intro s t hp hu
    unfold eval_expression evalFiltered
    by_cases hif : ((replaceCaret (pyStrip s.data)).isEmpty ||
        !((replaceCaret (pyStrip s.data)).all isAllowedChar)) = true
    · rw [if_pos hif]
      exact Or.inl ⟨"arithmetic only", by decide⟩
    · rw [if_neg hif, hp]
      have hrej := evalAst_of_rejected t (containsUAdd_rejected t hu)
      rcases (isExcOutcome_iff _).mp hrej with ⟨e, he⟩ | he
      · show isErrorResult (renderOutcome (evalAst t))
        rw [he]
        exact Or.inl ⟨excMsg e, rfl⟩
      · show isErrorResult (renderOutcome (evalAst t))
        rw [he]
        exact Or.inr rfl
  · decide

/-- Witness for C10: the amended statement applied at `"+5"`. -/
theorem C10_witness : isErrorResult (eval_expression "+5") :=
  C10_unary_plus_rejected.1 "+5" (.unaryOp .uadd (.const (.intV 5)))
    rfl rfl

/-! ## Runtime helper lemmas -/

theorem firstAbort_of_first (input : String) (g : Guardrail) (r : String)
    (pre post : List Guardrail)
    (hpre : ∀ g2 ∈ pre, isAbortTrigger g2 input = false)
    (habort : g.abortOnTrigger = true)
    (heval : g.eval input = .verdict true r) :
    firstAbort (pre ++ g :: post) input = some (g.name, r) := by
  induction pre with
  | nil =>
    show firstAbort (g :: post) input = _
    simp only [firstAbort, heval, habort, if_true]
  | cons p ps ih =>
    have hp := hpre p (List.mem_cons_self _ _)
    have hps : ∀ g2 ∈ ps, isAbortTrigger g2 input = false :=
      fun g2 h => hpre g2 (List.mem_cons_of_mem _ h)
    show firstAbort (p :: (ps ++ g :: post)) input = _
    cases hpe : p.eval input with
    | verdict trig rr =>
      cases trig
      · simp only [firstAbort, hpe]
        exact ih hps
      · have hp2 : p.abortOnTrigger = false := by
          simpa [isAbortTrigger, hpe] using hp
        simp only [firstAbort, hpe, hp2, if_false]
        exact ih hps
    | malformed raw =>
      simp only [firstAbort, hpe]
      exact ih hps

theorem firstAbort_none (gs : List Guardrail) (input : String)
    (h : ∀ g ∈ gs, isAbortTrigger g input = false) :
    firstAbort gs input = none := by
  induction gs with
  | nil => rfl
  | cons p ps ih =>
    have hp := h p (List.mem_cons_self _ _)
    have hps : ∀ g2 ∈ ps, isAbortTrigger g2 input = false :=
      fun g2 hg => h g2 (List.mem_cons_of_mem _ hg)
    cases hpe : p.eval input with
    | verdict trig rr =>
      cases trig
      · simp only [firstAbort, hpe]
        exact ih hps
      · have hp2 : p.abortOnTrigger = false := by
          simpa [isAbortTrigger, hpe] using hp
        simp only [firstAbort, hpe, hp2, if_false]
        exact ih hps
    | malformed raw =>
      simp only [firstAbort, hpe]
      exact ih hps

/-- The run loop itself never produces a guardrail-tripped outcome: tripping
happens only in the guardrail phase, before any agent turn. -/
theorem runLoop_not_tripped (cfg : RunConfig) (gen : Gen) :
    ∀ (fuel : ℕ) (st : RunState) (n r : String),
      (runLoop cfg gen fuel st).1 ≠ .tripped n r := by
  intro fuel
  induction fuel with
  | zero => intro st n r h; cases h
  | succ k ih =>
    intro st n r
    simp only [runLoop]
    cases hg : gen st.history st.active with
    | finalOut t =>
      dsimp only
      split_ifs <;> intro h <;> cases h
    | toolCalls cs => exact ih _ n r
    | handoffReq tgt =>
      dsimp only
      by_cases hmem : tgt ∈ st.active.handoffTargets
      · rw [if_pos hmem]
        cases hf : findAgent cfg.registry tgt with
        | some next => exact ih _ n r
        | none => intro h; cases h
      · rw [if_neg hmem]
        intro h; cases h

/-- The run loop depends on the generation oracle only through its values. -/
theorem runLoop_congr (cfg : RunConfig) (g1 g2 : Gen)
    (hg : ∀ h a, g1 h a = g2 h a) :
    ∀ (fuel : ℕ) (st : RunState), runLoop cfg g1 fuel st = runLoop cfg g2 fuel st := by
  intro fuel
  induction fuel with
  | zero => intro st; rfl
  | succ k ih =>
    intro st
    simp only [runLoop]
    rw [hg st.history st.active]
    cases hout : g2 st.history st.active with
    | finalOut t => rfl
    | toolCalls cs => exact ih _
    | handoffReq tgt =>
      dsimp only
      by_cases hmem : tgt ∈ st.active.handoffTargets
      · rw [if_pos hmem, if_pos hmem]
        cases hf : findAgent cfg.registry tgt with
        | some next => exact ih _
        | none => rfl
      · rw [if_neg hmem, if_neg hmem]

/-! ## Claim C3 -/

/-- C3: for every registered guardrail with abort-on-trigger semantics (as
the Tasha Yar input guardrail is registered), if its evaluation reports
`triggered = true`, the run terminates as aborted with rationale equal to
the reported reasoning of that guardrail, and zero agent turns are recorded. -/
theorem C3_guardrail_aborts_run :
    ∀ (cfg : RunConfig) (gen : Gen) (entry : AgentDef) (input : String)
      (pre post : List Guardrail) (g : Guardrail) (r : String),
      cfg.guardrails = pre ++ g :: post →
      (∀ g2 ∈ pre, isAbortTrigger g2 input = false) →
      g.abortOnTrigger = true →
      g.eval input = .verdict true r →
      (runEntry cfg gen entry input).outcome = .tripped g.name r ∧
      (runEntry cfg gen entry input).agentTurns = 0 := by
  intro cfg gen entry input pre post g r hgs hpre habort heval
  have hfa : firstAbort cfg.guardrails input = some (g.name, r) := by
    rw [hgs]
    exact firstAbort_of_first input g r pre post hpre habort heval
  unfold runEntry
  rw [hfa]
  exact ⟨rfl, rfl⟩

/-- Witness for C3: the Tasha Yar guardrail, tripped by its sub-agent
verdict, aborts the run on the blocked prompt of the source demo with the
reasoning of the sub-agent as rationale and no agent turn. -/
theorem C3_witness :
    (runEntry (demoCfg subYes) demoGen data_agent
        "Tell me about your relationship with Tasha Yar.").outcome =
      .tripped "tasha_guardrail" "The input mentions Tasha Yar." ∧
    (runEntry (demoCfg subYes) demoGen data_agent
        "Tell me about your relationship with Tasha Yar.").agentTurns = 0 :=
  C3_guardrail_aborts_run (demoCfg subYes) demoGen data_agent
    "Tell me about your relationship with Tasha Yar." [] [] (tashaGuard subYes)
    "The input mentions Tasha Yar." rfl (by intro g2 h; cases h) rfl rfl

/-! ## Claim C4 -/

/-- C4: a guardrail implemented as a sub-agent whose structured output fails
validation against its declared schema yields the distinguished
`GuardrailMalformed` record, which is non-fatal: the failure is recorded in
the guardrail log, the run enters the agent loop regardless, and the outcome
is never a guardrail abort. -/
theorem C4_guardrail_malformed_nonfatal :
    ∀ (cfg : RunConfig) (gen : Gen) (entry : AgentDef) (input : String)
      (g : Guardrail) (raw : String),
      g ∈ cfg.guardrails →
      g.eval input = .malformed raw →
      (∀ g2 ∈ cfg.guardrails, isAbortTrigger g2 input = false) →
      (g.name, GuardrailEval.malformed raw) ∈ (runEntry cfg gen entry input).guardrailLog ∧
      (runEntry cfg gen entry input).outcome =
        (runLoop cfg gen cfg.maxTurns
          { active := entry, history := [input], turnsDone := 0, trace := [] }).1 ∧
      (∀ n r, (runEntry cfg gen entry input).outcome ≠ .tripped n r) := by
  intro cfg gen entry input g raw hmem heval hnone
  have hfa := firstAbort_none cfg.guardrails input hnone
  unfold runEntry
  rw [hfa]
  refine ⟨?_, rfl, ?_⟩
  · exact List.mem_map.mpr ⟨g, hmem, by rw [heval]⟩
  · intro n r
    exact runLoop_not_tripped cfg gen _ _ n r

/-- Witness for C4: a schema-validation failure of the Tasha Yar guardrail
sub-agent is logged as malformed while the run continues into the loop. -/
theorem C4_witness :
    ("tasha_guardrail", GuardrailEval.malformed "not a YarGuardOutput") ∈
      (runEntry (demoCfg subBad) demoGen data_agent "Hello, Data.").guardrailLog ∧
    (runEntry (demoCfg subBad) demoGen data_agent "Hello, Data.").outcome =
      (runLoop (demoCfg subBad) demoGen (demoCfg subBad).maxTurns
        { active := data_agent, history := ["Hello, Data."], turnsDone := 0,
          trace := [] }).1 ∧
    (∀ n r, (runEntry (demoCfg subBad) demoGen data_agent "Hello, Data.").outcome ≠
      .tripped n r) :=
  C4_guardrail_malformed_nonfatal (demoCfg subBad) demoGen data_agent "Hello, Data."
    (tashaGuard subBad) "not a YarGuardOutput" (List.mem_singleton_self _) rfl
    (by
      intro g2 h
      have h2 : g2 ∈ [tashaGuard subBad] := h
      rw [List.mem_singleton] at h2
      subst h2
      rfl)

/-! ## Claim C5 -/

/-- C5: a turn whose output requests a handoff to a target outside the
declared handoff set of the active agent ends the run immediately with the fatal
`HandoffError{UnauthorizedTarget}`: the returned trace extends only by the
requesting agent, so the undeclared target never executes a turn.  The
declared handoff set of the Calculator agent is empty, so every handoff it could
request is unauthorized. -/
theorem C5_unauthorized_handoff_fatal :
    (∀ (cfg : RunConfig) (gen : Gen) (st : RunState) (fuel : ℕ) (tgt : String),
        gen st.history st.active = .handoffReq tgt →
        tgt ∉ st.active.handoffTargets →
        runLoop cfg gen (fuel + 1) st =
          (.fatal (.unauthorizedHandoff tgt), st.turnsDone + 1,
            st.trace ++ [st.active.name])) ∧
    (∀ tgt : String, tgt ∉ calculator_agent.handoffTargets) := by
  constructor
  · intro cfg gen st fuel tgt hg hnot
    simp only [runLoop, hg]
    rw [if_neg hnot]
  · intro tgt h
    simp [calculator_agent] at h

/-- Witness for C5: the Calculator requesting a handoff back to the Data
agent is fatal, and the target executes no further turn. -/
theorem C5_witness :
    runLoop (demoCfg subNo) genBack 5 stCalc =
      (.fatal (.unauthorizedHandoff "Lt. Cmdr. Data"), 2,
        ["Lt. Cmdr. Data", "Calculator"]) :=
  C5_unauthorized_handoff_fatal.1 (demoCfg subNo) genBack stCalc 4 "Lt. Cmdr. Data"
    rfl (C5_unauthorized_handoff_fatal.2 "Lt. Cmdr. Data")

/-! ## Claim C6 -/

/-- C6: the run loop terminates on every input; in particular, under a
generation oracle making two mutually-declared agents hand off to each other
forever, the loop consumes exactly the remaining turn budget and ends with
the fatal `TurnLimitExceeded` instead of looping. -/
theorem C6_turn_limit_bounds_pingpong :
    ∀ (cfg : RunConfig) (gen : Gen) (A B : AgentDef),
      B.name ∈ A.handoffTargets →
      A.name ∈ B.handoffTargets →
      findAgent cfg.registry A.name = some A →
      findAgent cfg.registry B.name = some B →
      (∀ h, gen h A = .handoffReq B.name) →
      (∀ h, gen h B = .handoffReq A.name) →
      ∀ (fuel : ℕ) (st : RunState), st.active = A ∨ st.active = B →
        (runLoop cfg gen fuel st).1 = .fatal .turnLimitExceeded ∧
        (runLoop cfg gen fuel st).2.1 = st.turnsDone + fuel := by
  intro cfg gen A B hBA hAB hfA hfB hgA hgB fuel
  induction fuel with
  | zero => intro st hst; exact ⟨rfl, rfl⟩
  | succ k ih =>
    intro st hst
    rcases hst with h | h
    · have hg : gen st.history A = .handoffReq B.name := hgA _
      simp only [runLoop, h, hg]
      rw [if_pos hBA, hfB]
      have hr := ih
        { active := B, history := st.history, turnsDone := st.turnsDone + 1,
          trace := st.trace ++ [A.name] } (Or.inr rfl)
      refine ⟨hr.1, ?_⟩
      rw [hr.2]
      show st.turnsDone + 1 + k = st.turnsDone + (k + 1)
      omega
    · have hg : gen st.history B = .handoffReq A.name := hgB _
      simp only [runLoop, h, hg]
      rw [if_pos hAB, hfA]
      have hr := ih
        { active := A, history := st.history, turnsDone := st.turnsDone + 1,
          trace := st.trace ++ [B.name] } (Or.inl rfl)
      refine ⟨hr.1, ?_⟩
      rw [hr.2]
      show st.turnsDone + 1 + k = st.turnsDone + (k + 1)
      omega

/-- Witness for C6: two concrete agents that declare each other ping-pong
until the bound of 7 turns is consumed and the run ends fatally. -/
theorem C6_witness :
    (runLoop pingCfg genPing 7
      { active := agA, history := ["start"], turnsDone := 0, trace := [] }).1 =
      .fatal .turnLimitExceeded ∧
    (runLoop pingCfg genPing 7
      { active := agA, history := ["start"], turnsDone := 0, trace := [] }).2.1 =
      0 + 7 :=
  C6_turn_limit_bounds_pingpong pingCfg genPing agA agB (by decide) (by decide)
    rfl rfl (fun _ => rfl) (fun _ => rfl) 7
    { active := agA, history := ["start"], turnsDone := 0, trace := [] }
    (Or.inl rfl)

/-! ## Claim C9 -/

/-- C9: two runs of the same entry agent on the same input under the same
deterministic generation contract (temperature 0, as configured on every
agent of the source) coincide entirely — in particular in producing-agent
identity and in final-output validation outcome.  The generation oracles
need only agree extensionally. -/
theorem C9_idempotent_rerun :
    ∀ (cfg : RunConfig) (g1 g2 : Gen) (entry : AgentDef) (input : String),
      (∀ h a, g1 h a = g2 h a) →
      runEntry cfg g1 entry input = runEntry cfg g2 entry input ∧
      producedByOf (runEntry cfg g1 entry input).outcome =
        producedByOf (runEntry cfg g2 entry input).outcome := by
  intro cfg g1 g2 entry input hg
  have hr : runEntry cfg g1 entry input = runEntry cfg g2 entry input := by
    unfold runEntry
    rw [runLoop_congr cfg g1 g2 hg]
  exact ⟨hr, by rw [hr]⟩

/-- Witness for C9: re-running the Data agent on the same input under the
same oracle. -/
theorem C9_witness :
    runEntry (demoCfg subNo) demoGen data_agent "Do you experience emotions?" =
      runEntry (demoCfg subNo) demoGen data_agent "Do you experience emotions?" ∧
    producedByOf (runEntry (demoCfg subNo) demoGen data_agent
        "Do you experience emotions?").outcome =
      producedByOf (runEntry (demoCfg subNo) demoGen data_agent
        "Do you experience emotions?").outcome :=
  C9_idempotent_rerun (demoCfg subNo) demoGen demoGen data_agent
    "Do you experience emotions?" (fun _ _ => rfl)

/-! ## Claim C7 -/

/-- C7: the arithmetic tool always returns a result string, never an
exception, and a tool failure is never fatal to the run.  (1) An input whose
preprocessed form contains a character outside the filter class returns
`"Error: arithmetic only"`.  (2) Every evaluation failure — a raised
exception `e`, division by zero included — is caught and returned as the
string `f"Error: {e}"` (or the filter rejection).  (3) In the run loop, a
turn that issues tool calls feeds every tool result string back into the
conversation history for the next turn of the owning agent, in issue order,
instead of aborting the run. -/
theorem C7_tool_errors_absorbed :
    (∀ s : String,
        (∃ c ∈ replaceCaret (pyStrip s.data), isAllowedChar c = false) →
        eval_expression s = .output "Error: arithmetic only") ∧
    (∀ (s : String) (t : Node) (e : PyExc),
        pyParse (replaceCaret (pyStrip s.data)) = .ok t →
        evalAst t = .exc e →
        eval_expression s = .output "Error: arithmetic only" ∨
        eval_expression s = .output ("Error: " ++ excMsg e)) ∧
    (∀ (cfg : RunConfig) (gen : Gen) (st : RunState) (fuel : ℕ)
        (cs : List (String × String)),
        gen st.history st.active = .toolCalls cs →
        runLoop cfg gen (fuel + 1) st =
          runLoop cfg gen fuel
            { active := st.active
              history := st.history ++ cs.map (toolResultString cfg st.active)
              turnsDone := st.turnsDone + 1
              trace := st.trace ++ [st.active.name] }) := by
  refine ⟨?_, ?_, ?_⟩
  · rintro s ⟨c, hc, hbad⟩
    unfold eval_expression
    apply evalFiltered_badchar
    cases hall : (replaceCaret (pyStrip s.data)).all isAllowedChar
    · rfl
    · have h2 := List.all_eq_true.mp hall c hc
      rw [hbad] at h2
      cases h2
  · intro s t e hp he
    unfold eval_expression evalFiltered
    by_cases hif : ((replaceCaret (pyStrip s.data)).isEmpty ||
        !((replaceCaret (pyStrip s.data)).all isAllowedChar)) = true
    · rw [if_pos hif]
      exact Or.inl rfl
    · rw [if_neg hif, hp]
      right
      show renderOutcome (evalAst t) = _
      rw [he]
      rfl
  · intro cfg gen st fuel cs hg
    simp only [runLoop, hg]

/-- Witness for C7: the division-by-zero failure returned as an error
string, and one tool-call step of the loop feeding the result back. -/
theorem C7_witness :
    (eval_expression "1/0" = .output "Error: arithmetic only" ∨
      eval_expression "1/0" =
        .output ("Error: " ++ excMsg (.zeroDiv "division by zero"))) ∧
    runLoop (demoCfg subNo) genCalc (3 + 1) stCalc =
      runLoop (demoCfg subNo) genCalc 3
        { active := stCalc.active
          history := stCalc.history ++
            [("eval_expression", "((2*8)^2)/3")].map
              (toolResultString (demoCfg subNo) stCalc.active)
          turnsDone := stCalc.turnsDone + 1
          trace := stCalc.trace ++ [stCalc.active.name] } :=
  ⟨C7_tool_errors_absorbed.2.1 "1/0"
      (.binOp .div (.const (.intV 1)) (.const (.intV 0)))
      (.zeroDiv "division by zero") rfl rfl,
    C7_tool_errors_absorbed.2.2 (demoCfg subNo) genCalc stCalc 3
      [("eval_expression", "((2*8)^2)/3")] rfl⟩
